import Mathlib

/-!
# The chat client of `frontend/src/App.jsx`

A shallow embedding of the stateful logic of the `App` component: the React
state variables, the `wsRef` reference, the four WebSocket callbacks
installed by `connectWebSocket`, and the three user operations `joinChat`,
`sendMessage` and `leaveChat`.

Conventions of the embedding.

* A JavaScript value that can come out of `JSON.parse` (or be built by the
  handler from such values) is a `JSValue`.  A number is represented by its
  `ToString` rendering: the program never computes with numbers, it only
  stores them, compares a value with a string literal by `===`, and
  interpolates values in template literals.
* A JavaScript string is a Lean `String`, a sequence of Unicode scalar
  values (lone surrogates are not represented).
* `JSON.parse` is a platform function.  A message event is represented by the
  outcome of `JSON.parse(event.data)`.
* A call of a state setter enqueues an `Update`; React applies the queued
  updates in order.  An updater function `prev => ...` runs when the update
  is applied.
-/

namespace App

/-! ## JavaScript values -/

/-- Exceptions that the platform operations used by the component can throw. -/
inductive JSError
  | SyntaxError
  | TypeError
  | InvalidStateError
  deriving DecidableEq, Repr

/-- Values produced by `JSON.parse`, and `undefined`.  The property list of an
object holds its own properties, each key once, in enumeration order. -/
inductive JSValue
  | undefined
  | null
  | bool (b : Bool)
  | number (text : String)
  | string (s : String)
  | array (items : List JSValue)
  | object (props : List (String × JSValue))

/-- Own-property lookup; a key that is absent reads as `undefined`. -/
def lookup (k : String) : List (String × JSValue) → JSValue
  | [] => .undefined
  | (k', v) :: rest => if k' = k then v else lookup k rest

/-- Property read `v.k`, for the property names the component reads (`type`,
`messages`, `username`, `online_users`, `timestamp`): none of them exists on
a built-in prototype, so on anything but an object with that own property the
read gives `undefined`; on `undefined` and `null` it throws a TypeError. -/
def getField (v : JSValue) (k : String) : Except JSError JSValue :=
  match v with
  | .undefined => .error .TypeError
  | .null => .error .TypeError
  | .object props => .ok (lookup k props)
  | _ => .ok .undefined

/-- Comparison `v === 'lit'` of a value with a string literal. -/
def strictEqString (v : JSValue) (lit : String) : Bool :=
  match v with
  | .string s => s == lit
  | _ => false

/-- Whether some own property of an object literal has the key `k`. -/
def hasOwn (k : String) : List (String × JSValue) → Bool
  | [] => false
  | (k', _) :: rest => k' == k || hasOwn k rest

mutual
/-- The abstract operation `ToString`, as a template literal applies it to an
interpolated value.  An array is joined with commas (`Array.prototype.join`).
A parsed object has no callable own property: when it has an own property
`toString`, both `toString` and `valueOf` fail to give a primitive and a
TypeError is thrown; otherwise `Object.prototype.toString` answers. -/
def toStringJS : JSValue → Except JSError String
  | .undefined => .ok "undefined"
  | .null => .ok "null"
  | .bool true => .ok "true"
  | .bool false => .ok "false"
  | .number text => .ok text
  | .string s => .ok s
  | .array items => do
      let texts ← itemTexts items
      pure (",".intercalate texts)
  | .object props => if hasOwn "toString" props then .error .TypeError else .ok "[object Object]"

/-- The texts of the items of an array inside `join`: the empty string for
`undefined` and `null`, `ToString` of the item otherwise. -/
def itemTexts : List JSValue → Except JSError (List String)
  | [] => .ok []
  | x :: rest => do
      let a ← (match x with
        | .undefined => .ok ""
        | .null => .ok ""
        | v => toStringJS v)
      let b ← itemTexts rest
      pure (a :: b)
end

/-- The spread `...v` inside an array literal: the items of an array, the code
points of a string; any other value is not iterable. -/
def spread : JSValue → Except JSError (List JSValue)
  | .array items => .ok items
  | .string s => .ok (s.data.map fun c => JSValue.string (String.singleton c))
  | _ => .error .TypeError

/-! ## Strings -/

/-- The code points that `String.prototype.trim` removes: WhiteSpace and
LineTerminator. -/
def isTrimmed (c : Char) : Bool :=
  let n := c.toNat
  n == 0x09 || n == 0x0A || n == 0x0B || n == 0x0C || n == 0x0D || n == 0x20 ||
  n == 0xA0 || n == 0x1680 || (0x2000 ≤ n && n ≤ 0x200A) || n == 0x2028 ||
  n == 0x2029 || n == 0x202F || n == 0x205F || n == 0x3000 || n == 0xFEFF

/-- The method `String.prototype.trim`. -/
def trim (s : String) : String :=
  String.mk ((s.data.dropWhile isTrimmed).reverse.dropWhile isTrimmed).reverse

/-- Truthiness of a string: it is not empty. -/
def truthy (s : String) : Bool :=
  !s.data.isEmpty

/-! ## `JSON.stringify` -/

/-- One lower-case hexadecimal digit. -/
def hexDigit (n : Nat) : Char :=
  if n < 10 then Char.ofNat (48 + n) else Char.ofNat (87 + n)

/-- The escape of one code point inside a JSON string literal
(`QuoteJSONString`). -/
def quoteChar (c : Char) : List Char :=
  let n := c.toNat
  if n == 0x08 then ['\\', 'b']
  else if n == 0x09 then ['\\', 't']
  else if n == 0x0A then ['\\', 'n']
  else if n == 0x0C then ['\\', 'f']
  else if n == 0x0D then ['\\', 'r']
  else if n == 0x22 then ['\\', '"']
  else if n == 0x5C then ['\\', '\\']
  else if n < 0x20 then ['\\', 'u', '0', '0', hexDigit (n / 16), hexDigit (n % 16)]
  else [c]

/-- The abstract operation `QuoteJSONString`. -/
def quoteJSONString (s : String) : String :=
  String.mk ('"' :: (s.data.flatMap quoteChar ++ ['"']))

mutual
/-- The function `JSON.stringify` on one value; `none` stands for the result
`undefined`.  A number that is not finite is written `null`. -/
def JSON.stringify : JSValue → Option String
  | .undefined => none
  | .null => some "null"
  | .bool true => some "true"
  | .bool false => some "false"
  | .number text =>
      if text == "NaN" || text == "Infinity" || text == "-Infinity" then some "null" else some text
  | .string s => some (quoteJSONString s)
  | .array items => some ("[" ++ ",".intercalate (JSON.stringifyItems items) ++ "]")
  | .object props => some ("\x7b" ++ ",".intercalate (JSON.stringifyProps props) ++ "\x7d")

/-- The items of an array: an item without a JSON text is written `null`. -/
def JSON.stringifyItems : List JSValue → List String
  | [] => []
  | x :: rest =>
      (match JSON.stringify x with
        | some t => t
        | none => "null") :: JSON.stringifyItems rest

/-- The members of an object: a property without a JSON text is left out. -/
def JSON.stringifyProps : List (String × JSValue) → List String
  | [] => []
  | (k, v) :: rest =>
      match JSON.stringify v with
      | some t => (quoteJSONString k ++ ":" ++ t) :: JSON.stringifyProps rest
      | none => JSON.stringifyProps rest
end

/-! ## The component state -/

/-- The attribute `readyState` of a WebSocket. -/
inductive ReadyState
  | CONNECTING
  | OPEN
  | CLOSING
  | CLOSED
  deriving DecidableEq, Repr

/-- A WebSocket object as the component uses it: its url, its `readyState`, and
the log of the text frames handed to the network by `send`. -/
structure WebSocket where
  url : String
  readyState : ReadyState
  sent : List String

/-- The method `WebSocket.send`: an InvalidStateError while the socket is
connecting; the frame is transmitted while it is open; it is discarded once
the socket is closing or closed. -/
def WebSocket.send (ws : WebSocket) (data : String) : Except JSError WebSocket :=
  match ws.readyState with
  | .CONNECTING => .error .InvalidStateError
  | .OPEN => .ok { ws with sent := ws.sent ++ [data] }
  | .CLOSING => .ok ws
  | .CLOSED => .ok ws

/-- The method `WebSocket.close` without arguments: nothing on a socket that is
closing or closed, otherwise the closing handshake starts and `readyState`
becomes CLOSING.  It does not throw. -/
def WebSocket.close (ws : WebSocket) : WebSocket :=
  match ws.readyState with
  | .CONNECTING => { ws with readyState := .CLOSING }
  | .OPEN => { ws with readyState := .CLOSING }
  | .CLOSING => ws
  | .CLOSED => ws

/-- The six `useState` variables of `App`, the reference `wsRef`, and the urls
of the WebSockets constructed so far. -/
structure State where
  username : String
  isJoined : Bool
  messages : JSValue
  inputMessage : String
  onlineUsers : JSValue
  isConnected : Bool
  wsRef : Option WebSocket
  constructed : List String

/-- The state of a freshly mounted component. -/
def State.initial : State :=
  { username := "", isJoined := false, messages := .array [], inputMessage := "",
    onlineUsers := .array [], isConnected := false, wsRef := none, constructed := [] }

/-! ## The WebSocket callbacks -/

/-- A message event, given by the outcome of `JSON.parse(event.data)`: the
parsed value, or the SyntaxError thrown for a text that is not JSON (a binary
frame is converted to a text that is not JSON). -/
structure MessageEvent where
  parsed : Except JSError JSValue

/-- The event of a frame whose text parses to the value `v`. -/
def MessageEvent.ofValue (v : JSValue) : MessageEvent :=
  { parsed := .ok v }

/-- The event of a frame whose text is not JSON: `JSON.parse` throws. -/
def MessageEvent.unparsable : MessageEvent :=
  { parsed := .error .SyntaxError }

/-- A queued state update of the two variables `ws.onmessage` writes. -/
inductive Update
  | setMessages (v : JSValue)
  | setMessagesWith (updater : JSValue → Except JSError JSValue)
  | setOnlineUsers (v : JSValue)

/-- The updater `(prev) => [...prev, data]`. -/
def appendData (data : JSValue) (prev : JSValue) : Except JSError JSValue := do
  let items ← spread prev
  pure (.array (items ++ [data]))

/-- The updater `(prev) => [...prev, { type: 'system', message:
${data.username}<suffix>, timestamp: data.timestamp }]`, the message being a
template literal. -/
def appendNotice (suffix : String) (data : JSValue) (prev : JSValue) : Except JSError JSValue := do
  let items ← spread prev
  let u ← getField data "username"
  let text ← toStringJS u
  let ts ← getField data "timestamp"
  pure (.array (items ++
    [.object [("type", .string "system"), ("message", .string (text ++ suffix)),
      ("timestamp", ts)]]))

/-- The body of `ws.onmessage`: it throws, or returns the updates it queued.
Both places that can throw (`JSON.parse` and the read `data.type`) come before
the first setter call. -/
def handler (event : MessageEvent) : Except JSError (List Update) := do
  let data ← event.parsed
  let ty ← getField data "type"
  if strictEqString ty "history" then
    let ms ← getField data "messages"
    pure [.setMessages ms]
  else if strictEqString ty "message" then
    pure [.setMessagesWith (appendData data)]
  else if strictEqString ty "user_joined" then
    let us ← getField data "online_users"
    pure [.setOnlineUsers us, .setMessagesWith (appendNotice " joined the chat" data)]
  else if strictEqString ty "user_left" then
    let us ← getField data "online_users"
    pure [.setOnlineUsers us, .setMessagesWith (appendNotice " left the chat" data)]
  else
    pure []

/-- React applies one queued update. -/
def applyUpdate (S : State) : Update → Except JSError State
  | .setMessages v => .ok { S with messages := v }
  | .setMessagesWith updater => do
      let v ← updater S.messages
      pure { S with messages := v }
  | .setOnlineUsers v => .ok { S with onlineUsers := v }

/-- React applies the queued updates in order. -/
def applyUpdates (S : State) : List Update → Except JSError State
  | [] => .ok S
  | u :: rest => do
      let S1 ← applyUpdate S u
      applyUpdates S1 rest

/-- The callback `ws.onmessage` followed by the state updates it queued.  The
result is an error when the handler throws, in which case nothing was queued
and no state variable is written, or when an updater throws while React
applies it. -/
def onmessage (S : State) (event : MessageEvent) : Except JSError State := do
  let updates ← handler event
  applyUpdates S updates

/-- The callback `ws.onopen`. -/
def onopen (S : State) : State :=
  { S with isConnected := true }

/-- The callback `ws.onerror`. -/
def onerror (S : State) : State :=
  { S with isConnected := false }

/-- The callback `ws.onclose`. -/
def onclose (S : State) : State :=
  { S with isConnected := false }

/-- Frames delivered one after the other, each through `ws.onmessage`. -/
def deliver (S : State) : List MessageEvent → Except JSError State
  | [] => .ok S
  | event :: rest => do
      let S1 ← onmessage S event
      deliver S1 rest

/-- The browser delivers one message event to `ws.onmessage`.  An exception
thrown out of the handler is reported by the browser and ends that call only:
the socket stays open and, nothing having been queued, every state variable is
as before.  Otherwise React applies the queued updates; the error result is
that of an updater that throws. -/
def dispatch (S : State) (event : MessageEvent) : Except JSError State :=
  match handler event with
  | .error _ => .ok S
  | .ok updates => applyUpdates S updates

/-- The browser delivers message events one after the other. -/
def dispatchAll (S : State) : List MessageEvent → Except JSError State
  | [] => .ok S
  | event :: rest => do
      let S1 ← dispatch S event
      dispatchAll S1 rest

/-! ## The user operations -/

/-- The constructor `new WebSocket(url)` on the urls that `connectWebSocket`
builds, in a page that may open `ws:` connections: such a url always parses
and has the scheme `ws`, and the constructor throws a SyntaxError exactly when
the url has a fragment, that is when it contains `#`.  The new socket is
connecting. -/
def WebSocket.new (url : String) : Except JSError WebSocket :=
  if url.data.contains '#' then .error .SyntaxError
  else .ok { url := url, readyState := .CONNECTING, sent := [] }

/-- The function `connectWebSocket`: construct the socket, install the four
callbacks, store the socket in `wsRef.current`. -/
def connectWebSocket (S : State) (user : String) : Except JSError State := do
  let ws ← WebSocket.new ("ws://localhost:8000/ws/" ++ user)
  pure { S with wsRef := some ws, constructed := S.constructed ++ [ws.url] }

/-- The function `joinChat`.  It has no `return` statement: its value is
`undefined` on both branches. -/
def joinChat (S : State) : Except JSError (JSValue × State) :=
  if truthy (trim S.username) then do
    let S1 ← connectWebSocket S (trim S.username)
    pure (.undefined, { S1 with isJoined := true })
  else
    pure (.undefined, S)

/-- The function `sendMessage` (`e.preventDefault()` touches nothing here). -/
def sendMessage (S : State) : Except JSError State :=
  if truthy (trim S.inputMessage) then
    match S.wsRef with
    | some ws =>
        if ws.readyState = .OPEN then do
          let frame := (JSON.stringify (.object [("message", .string S.inputMessage)])).getD "undefined"
          let ws1 ← ws.send frame
          pure { S with wsRef := some ws1, inputMessage := "" }
        else pure S
    | none => pure S
  else pure S

/-- The function `leaveChat`. -/
def leaveChat (S : State) : State :=
  let ref := match S.wsRef with
    | some ws => some ws.close
    | none => none
  { S with wsRef := ref, isJoined := false, messages := .array [], onlineUsers := .array [],
           username := "" }

/-! ## Frame classification used in the statements -/

/-- The test `data.type === lit` of the handler, false when the read throws. -/
def isKind (lit : String) (data : JSValue) : Bool :=
  match getField data "type" with
  | .ok ty => strictEqString ty lit
  | .error _ => false

/-- The frame takes one of the two presence branches of the handler. -/
def isPresence (data : JSValue) : Bool :=
  isKind "user_joined" data || isKind "user_left" data

/-- The field `k` of the frame is an array. -/
def fieldIsArray (data : JSValue) (k : String) : Bool :=
  match getField data k with
  | .ok (.array _) => true
  | _ => false

/-- The field `k` of the frame is a string. -/
def fieldIsString (data : JSValue) (k : String) : Bool :=
  match getField data k with
  | .ok (.string _) => true
  | _ => false

/-- A parsed frame the handler can take without harm: its `type` can be read,
a `history` frame carries an array of messages, and a presence frame carries
a string username.  Frames with any other discriminator qualify. -/
def wellFormed (data : JSValue) : Bool :=
  match getField data "type" with
  | .error _ => false
  | .ok _ =>
      (!isKind "history" data || fieldIsArray data "messages") &&
      (!isPresence data || fieldIsString data "username")

/-- The frames that `sendMessage` has handed to the current socket. -/
def sentFrames (S : State) : List String :=
  match S.wsRef with
  | some ws => ws.sent
  | none => []

/-! ## Sample frames and sessions -/

/-- The frame `{"type":"message","id":"m1","username":"alice","message":"hi",
"timestamp":"2024-01-01T00:00:00Z"}`. -/
def Sample.hello : JSValue :=
  .object [("type", .string "message"), ("id", .string "m1"), ("username", .string "alice"),
    ("message", .string "hi"), ("timestamp", .string "2024-01-01T00:00:00Z")]

/-- The frame `{"type":"user_joined","username":"carol",
"online_users":["alice","bob","carol"],"timestamp":"T0"}`. -/
def Sample.carolJoined : JSValue :=
  .object [("type", .string "user_joined"), ("username", .string "carol"),
    ("online_users", .array [.string "alice", .string "bob", .string "carol"]),
    ("timestamp", .string "T0")]

/-- The frame `{"type":"user_left","username":"bob","online_users":["alice"],
"timestamp":"T"}`. -/
def Sample.bobLeft : JSValue :=
  .object [("type", .string "user_left"), ("username", .string "bob"),
    ("online_users", .array [.string "alice"]), ("timestamp", .string "T")]

/-- A history frame with two messages. -/
def Sample.history : JSValue :=
  .object [("type", .string "history"),
    ("messages", .array [
      .object [("id", .string "a"), ("username", .string "bob"), ("message", .string "yo"),
        ("timestamp", .string "T1")],
      .object [("id", .string "b"), ("username", .string "alice"), ("message", .string "hey"),
        ("timestamp", .string "T2")]])]

/-- The frame `{"type":"history"}`, without its `messages`. -/
def Sample.historyNoMessages : JSValue :=
  .object [("type", .string "history")]

/-- The frame `{"type":"user_left","timestamp":"T"}`, without `username` and
`online_users`. -/
def Sample.leftNoFields : JSValue :=
  .object [("type", .string "user_left"), ("timestamp", .string "T")]

/-- The frame `{"type":"user_left","username":{"toString":1},"timestamp":"T"}`,
without `online_users`, its username an object with an own `toString`. -/
def Sample.leftBadUsername : JSValue :=
  .object [("type", .string "user_left"), ("username", .object [("toString", .number "1")]),
    ("timestamp", .string "T")]

/-- The frame `{"type":"bogus"}`. -/
def Sample.bogus : JSValue :=
  .object [("type", .string "bogus")]

/-- A socket to the endpoint of alice, open, nothing sent yet. -/
def Sample.socket : WebSocket :=
  { url := "ws://localhost:8000/ws/alice", readyState := .OPEN, sent := [] }

/-- A session of alice: joined, connected, one message in the timeline, two
users in the roster, and a draft in the input field. -/
def Sample.session : State :=
  { username := "alice", isJoined := true, messages := .array [Sample.hello],
    inputMessage := "see you", onlineUsers := .array [.string "alice", .string "bob"],
    isConnected := true, wsRef := some Sample.socket,
    constructed := ["ws://localhost:8000/ws/alice"] }

/-! ## One frame -/

theorem onmessage_unparsable (S : State) :
    onmessage S MessageEvent.unparsable = .error .SyntaxError := rfl

theorem onmessage_history (S : State) (data M : JSValue)
    (hty : getField data "type" = .ok (.string "history"))
    (hms : getField data "messages" = .ok M) :
    onmessage S (.ofValue data) = .ok { S with messages := M } := by
  simp [onmessage, handler, MessageEvent.ofValue, hty, hms, strictEqString, applyUpdates,
    applyUpdate, bind, Except.bind, pure, Except.pure]

theorem onmessage_message (S : State) (prev : List JSValue) (data : JSValue)
    (hprev : S.messages = .array prev)
    (hty : getField data "type" = .ok (.string "message")) :
    onmessage S (.ofValue data) = .ok { S with messages := .array (prev ++ [data]) } := by
  simp [onmessage, handler, MessageEvent.ofValue, hty, strictEqString, applyUpdates,
    applyUpdate, appendData, spread, hprev, bind, Except.bind, pure, Except.pure]

theorem onmessage_joined (S : State) (prev : List JSValue) (data uv ts ou : JSValue) (u : String)
    (hprev : S.messages = .array prev)
    (hty : getField data "type" = .ok (.string "user_joined"))
    (hou : getField data "online_users" = .ok ou)
    (hu : getField data "username" = .ok uv) (htext : toStringJS uv = .ok u)
    (hts : getField data "timestamp" = .ok ts) :
    onmessage S (.ofValue data) = .ok { S with
      onlineUsers := ou,
      messages := .array (prev ++
        [.object [("type", .string "system"), ("message", .string (u ++ " joined the chat")),
          ("timestamp", ts)]]) } := by
  simp [onmessage, handler, MessageEvent.ofValue, hty, hou, hu, htext, hts, strictEqString,
    applyUpdates, applyUpdate, appendNotice, spread, hprev, bind, Except.bind, pure, Except.pure]

theorem onmessage_left (S : State) (prev : List JSValue) (data uv ts ou : JSValue) (u : String)
    (hprev : S.messages = .array prev)
    (hty : getField data "type" = .ok (.string "user_left"))
    (hou : getField data "online_users" = .ok ou)
    (hu : getField data "username" = .ok uv) (htext : toStringJS uv = .ok u)
    (hts : getField data "timestamp" = .ok ts) :
    onmessage S (.ofValue data) = .ok { S with
      onlineUsers := ou,
      messages := .array (prev ++
        [.object [("type", .string "system"), ("message", .string (u ++ " left the chat")),
          ("timestamp", ts)]]) } := by
  simp [onmessage, handler, MessageEvent.ofValue, hty, hou, hu, htext, hts, strictEqString,
    applyUpdates, applyUpdate, appendNotice, spread, hprev, bind, Except.bind, pure, Except.pure]

theorem onmessage_other (S : State) (data ty : JSValue)
    (hty : getField data "type" = .ok ty)
    (h1 : strictEqString ty "history" = false) (h2 : strictEqString ty "message" = false)
    (h3 : strictEqString ty "user_joined" = false) (h4 : strictEqString ty "user_left" = false) :
    onmessage S (.ofValue data) = .ok S := by
  simp [onmessage, handler, MessageEvent.ofValue, hty, h1, h2, h3, h4, applyUpdates,
    bind, Except.bind, pure, Except.pure]

theorem strictEqString_iff (ty : JSValue) (lit : String) :
    strictEqString ty lit = true ↔ ty = .string lit := by
  cases ty <;> simp [strictEqString]

theorem getField_defined (data ty : JSValue) (k : String)
    (hty : getField data "type" = .ok ty) : ∃ v, getField data k = .ok v := by
  cases data <;> simp [getField] at hty ⊢

/-- What a frame that was applied did to the roster. -/
theorem onmessage_onlineUsers (S S' : State) (data : JSValue)
    (h : onmessage S (.ofValue data) = .ok S') :
    (isPresence data = true → getField data "online_users" = .ok S'.onlineUsers) ∧
    (isPresence data = false → S'.onlineUsers = S.onlineUsers) := by
  cases hty : getField data "type" with
  | error e =>
    simp [onmessage, handler, MessageEvent.ofValue, hty, bind, Except.bind] at h
  | ok ty =>
    obtain ⟨ou, hou⟩ := getField_defined data ty "online_users" hty
    obtain ⟨ms, hms⟩ := getField_defined data ty "messages" hty
    by_cases h1 : strictEqString ty "history" = true
    · have e := (strictEqString_iff _ _).1 h1
      subst e
      rw [onmessage_history S data ms hty hms] at h
      cases h
      simp [isPresence, isKind, hty, strictEqString]
    by_cases h2 : strictEqString ty "message" = true
    · have e := (strictEqString_iff _ _).1 h2
      subst e
      cases hu : appendData data S.messages with
      | error e =>
        simp [onmessage, handler, MessageEvent.ofValue, hty, hou, strictEqString, applyUpdates,
          applyUpdate, bind, Except.bind, pure, Except.pure, hu] at h
      | ok v =>
        simp [onmessage, handler, MessageEvent.ofValue, hty, hou, strictEqString, applyUpdates,
          applyUpdate, bind, Except.bind, pure, Except.pure, hu] at h
        subst h
        simp [isPresence, isKind, hty, strictEqString]
    by_cases h3 : strictEqString ty "user_joined" = true
    · have e := (strictEqString_iff _ _).1 h3
      subst e
      cases hu : appendNotice " joined the chat" data S.messages with
      | error e =>
        simp [onmessage, handler, MessageEvent.ofValue, hty, hou, strictEqString, applyUpdates,
          applyUpdate, bind, Except.bind, pure, Except.pure, hu] at h
      | ok v =>
        simp [onmessage, handler, MessageEvent.ofValue, hty, hou, strictEqString, applyUpdates,
          applyUpdate, bind, Except.bind, pure, Except.pure, hu] at h
        subst h
        simp [isPresence, isKind, hty, strictEqString, hou]
    by_cases h4 : strictEqString ty "user_left" = true
    · have e := (strictEqString_iff _ _).1 h4
      subst e
      cases hu : appendNotice " left the chat" data S.messages with
      | error e =>
        simp [onmessage, handler, MessageEvent.ofValue, hty, hou, strictEqString, applyUpdates,
          applyUpdate, bind, Except.bind, pure, Except.pure, hu] at h
      | ok v =>
        simp [onmessage, handler, MessageEvent.ofValue, hty, hou, strictEqString, applyUpdates,
          applyUpdate, bind, Except.bind, pure, Except.pure, hu] at h
        subst h
        simp [isPresence, isKind, hty, strictEqString, hou]
    · simp only [Bool.not_eq_true] at h1 h2 h3 h4
      rw [onmessage_other S data ty hty h1 h2 h3 h4] at h
      cases h
      simp [isPresence, isKind, hty, h3, h4]

theorem isKind_iff (lit : String) (data : JSValue) :
    isKind lit data = true ↔ getField data "type" = .ok (.string lit) := by
  unfold isKind
  cases hty : getField data "type" with
  | error e => simp
  | ok ty => simp [strictEqString_iff]

theorem isPresence_iff (data : JSValue) :
    isPresence data = true ↔
      getField data "type" = .ok (.string "user_joined") ∨
      getField data "type" = .ok (.string "user_left") := by
  simp [isPresence, isKind_iff]

theorem fieldIsArray_iff (data : JSValue) (k : String) :
    fieldIsArray data k = true ↔ ∃ items, getField data k = .ok (.array items) := by
  unfold fieldIsArray
  cases h : getField data k with
  | error e => simp
  | ok v => cases v <;> simp

theorem fieldIsString_iff (data : JSValue) (k : String) :
    fieldIsString data k = true ↔ ∃ s, getField data k = .ok (.string s) := by
  unfold fieldIsString
  cases h : getField data k with
  | error e => simp
  | ok v => cases v <;> simp

/-- A message frame, and a presence frame with a string username, append one
entry to a timeline that is an array. -/
theorem onmessage_appends (S : State) (prev : List JSValue) (data : JSValue)
    (hprev : S.messages = .array prev)
    (hkind : isKind "message" data = true ∨
      (isPresence data = true ∧ fieldIsString data "username" = true)) :
    ∃ S' entry, onmessage S (.ofValue data) = .ok S' ∧
      S'.messages = .array (prev ++ [entry]) := by
  rcases hkind with hm | ⟨hp, hs⟩
  · exact ⟨_, data, onmessage_message S prev data hprev ((isKind_iff _ _).1 hm), rfl⟩
  · obtain ⟨u, hu⟩ := (fieldIsString_iff _ _).1 hs
    rcases (isPresence_iff _).1 hp with hty | hty
    · obtain ⟨ou, hou⟩ := getField_defined data _ "online_users" hty
      obtain ⟨ts, hts⟩ := getField_defined data _ "timestamp" hty
      exact ⟨_, _, onmessage_joined S prev data (.string u) ts ou u hprev hty hou hu rfl hts, rfl⟩
    · obtain ⟨ou, hou⟩ := getField_defined data _ "online_users" hty
      obtain ⟨ts, hts⟩ := getField_defined data _ "timestamp" hty
      exact ⟨_, _, onmessage_left S prev data (.string u) ts ou u hprev hty hou hu rfl hts, rfl⟩

/-- A well-formed frame is applied, and the timeline stays an array. -/
theorem onmessage_wellFormed (S : State) (prev : List JSValue) (data : JSValue)
    (hprev : S.messages = .array prev) (hwf : wellFormed data = true) :
    ∃ S' prev', onmessage S (.ofValue data) = .ok S' ∧ S'.messages = .array prev' := by
  cases hty : getField data "type" with
  | error e => simp [wellFormed, hty] at hwf
  | ok ty =>
    simp only [wellFormed, hty, Bool.and_eq_true, Bool.or_eq_true, Bool.not_eq_true'] at hwf
    obtain ⟨hh, hp⟩ := hwf
    by_cases h1 : isKind "history" data = true
    · have ha : fieldIsArray data "messages" = true := by
        rcases hh with hh | hh
        · rw [hh] at h1; cases h1
        · exact hh
      obtain ⟨items, hms⟩ := (fieldIsArray_iff _ _).1 ha
      exact ⟨_, items, onmessage_history S data _ ((isKind_iff _ _).1 h1) hms, rfl⟩
    by_cases h2 : isKind "message" data = true
    · obtain ⟨S', entry, h, hm⟩ := onmessage_appends S prev data hprev (Or.inl h2)
      exact ⟨S', _, h, hm⟩
    by_cases h3 : isPresence data = true
    · have hs : fieldIsString data "username" = true := by
        rcases hp with hp | hp
        · rw [hp] at h3; cases h3
        · exact hp
      obtain ⟨S', entry, h, hm⟩ := onmessage_appends S prev data hprev (Or.inr ⟨h3, hs⟩)
      exact ⟨S', _, h, hm⟩
    · simp only [isPresence, Bool.or_eq_true, not_or, Bool.not_eq_true] at h3
      simp only [Bool.not_eq_true] at h1 h2
      simp only [isKind, hty] at h1 h2 h3
      exact ⟨S, prev, onmessage_other S data ty hty h1 h2 h3.1 h3.2, hprev⟩

/-! ## Sequences of frames -/

theorem deliver_cons_ok (S S1 : State) (event : MessageEvent) (rest : List MessageEvent)
    (h : onmessage S event = .ok S1) : deliver S (event :: rest) = deliver S1 rest := by
  simp [deliver, h, bind, Except.bind]

theorem deliver_cons_inv (S S' : State) (event : MessageEvent) (rest : List MessageEvent)
    (h : deliver S (event :: rest) = .ok S') :
    ∃ S1, onmessage S event = .ok S1 ∧ deliver S1 rest = .ok S' := by
  cases h1 : onmessage S event with
  | error e => simp [deliver, h1, bind, Except.bind] at h
  | ok S1 => exact ⟨S1, rfl, by rw [deliver_cons_ok S S1 event rest h1] at h; exact h⟩

/-- The roster after a run: the `online_users` of the last presence frame, or
the roster before the run when there is none. -/
theorem deliver_onlineUsers (frames : List JSValue) :
    ∀ S S' : State, deliver S (frames.map MessageEvent.ofValue) = .ok S' →
      match (frames.filter isPresence).getLast? with
      | some d => getField d "online_users" = .ok S'.onlineUsers
      | none => S'.onlineUsers = S.onlineUsers := by
  induction frames with
  | nil =>
    intro S S' h
    simp [deliver] at h
    simp [h]
  | cons f fs ih =>
    intro S S' h
    obtain ⟨S1, h1, h2⟩ := deliver_cons_inv S S' _ _ h
    have hstep := onmessage_onlineUsers S S1 f h1
    have hrest := ih S1 S' h2
    by_cases hp : isPresence f = true
    · rw [List.filter_cons_of_pos hp, List.getLast?_cons]
      cases hl : (fs.filter isPresence).getLast? with
      | none =>
        rw [hl] at hrest
        simp only [Option.getD_none]
        rw [hrest]
        exact hstep.1 hp
      | some d =>
        rw [hl] at hrest
        simpa using hrest
    · rw [List.filter_cons_of_neg hp]
      simp only [Bool.not_eq_true] at hp
      cases hl : (fs.filter isPresence).getLast? with
      | none =>
        rw [hl] at hrest
        simp only
        rw [hrest]
        exact hstep.2 hp
      | some d =>
        rw [hl] at hrest
        simpa using hrest

/-- Well-formed frames are all applied when the timeline starts as an array. -/
theorem deliver_wellFormed (frames : List JSValue) :
    ∀ (S : State) (prev : List JSValue), S.messages = .array prev →
      (∀ f ∈ frames, wellFormed f = true) →
      ∃ S' prev', deliver S (frames.map MessageEvent.ofValue) = .ok S' ∧
        S'.messages = .array prev' := by
  induction frames with
  | nil =>
    intro S prev hprev _
    exact ⟨S, prev, rfl, hprev⟩
  | cons f fs ih =>
    intro S prev hprev hwf
    obtain ⟨S1, prev1, h1, hm1⟩ :=
      onmessage_wellFormed S prev f hprev (hwf f (List.mem_cons_self _ _))
    obtain ⟨S', prev', h2, hm2⟩ :=
      ih S1 prev1 hm1 (fun g hg => hwf g (List.mem_cons_of_mem _ hg))
    refine ⟨S', prev', ?_, hm2⟩
    rw [List.map_cons, deliver_cons_ok S S1 _ _ h1]
    exact h2

/-- Every message frame and every presence frame adds one entry. -/
theorem deliver_length (frames : List JSValue) :
    ∀ (S : State) (prev : List JSValue), S.messages = .array prev →
      (∀ f ∈ frames, isKind "message" f = true ∨
        (isPresence f = true ∧ fieldIsString f "username" = true)) →
      ∃ S' T, deliver S (frames.map MessageEvent.ofValue) = .ok S' ∧
        S'.messages = .array T ∧
        T.length = prev.length + frames.countP (isKind "message") + frames.countP isPresence := by
  induction frames with
  | nil =>
    intro S prev hprev _
    exact ⟨S, prev, rfl, hprev, by simp⟩
  | cons f fs ih =>
    intro S prev hprev hk
    have hf := hk f (List.mem_cons_self _ _)
    obtain ⟨S1, entry, h1, hm1⟩ := onmessage_appends S prev f hprev hf
    obtain ⟨S', T, h2, hm2, hlen⟩ :=
      ih S1 (prev ++ [entry]) hm1 (fun g hg => hk g (List.mem_cons_of_mem _ hg))
    refine ⟨S', T, ?_, hm2, ?_⟩
    · rw [List.map_cons, deliver_cons_ok S S1 _ _ h1]
      exact h2
    · have hone : (if isKind "message" f = true then 1 else 0) +
          (if isPresence f = true then 1 else 0) = 1 := by
        rcases hf with hm | ⟨hp, _⟩
        · have hty := (isKind_iff _ _).1 hm
          have hnp : isPresence f = false := by
            simp [isPresence, isKind, hty, strictEqString]
          simp [hm, hnp]
        · have hnm : isKind "message" f = false := by
            rcases (isPresence_iff _).1 hp with hty | hty <;>
              simp [isKind, hty, strictEqString]
          simp [hp, hnm]
      rw [hlen, List.countP_cons, List.countP_cons, List.length_append, List.length_singleton]
      omega

/-! ## The claims about `ws.onmessage` -/

/-- C1: a frame whose `type` is `history` and whose `messages` is M (a list of
messages, or any other value) is applied, and the state after it differs from
the state before only in the timeline, which is M itself: nothing of the prior
timeline is kept, and the roster is the one before. -/
theorem history_replaces_timeline (S : State) (data M : JSValue)
    (hty : getField data "type" = .ok (.string "history"))
    (hms : getField data "messages" = .ok M) :
    ∃ S', onmessage S (.ofValue data) = .ok S' ∧ S' = { S with messages := M } ∧
      S'.messages = M ∧ S'.onlineUsers = S.onlineUsers :=
  ⟨_, onmessage_history S data M hty hms, rfl, rfl, rfl⟩

theorem history_replaces_timeline_witness :
    ∃ S', onmessage Sample.session (.ofValue Sample.history) = .ok S' ∧
      S' = { Sample.session with messages := .array [
        .object [("id", .string "a"), ("username", .string "bob"), ("message", .string "yo"),
          ("timestamp", .string "T1")],
        .object [("id", .string "b"), ("username", .string "alice"), ("message", .string "hey"),
          ("timestamp", .string "T2")]] } ∧
      S'.messages = .array [
        .object [("id", .string "a"), ("username", .string "bob"), ("message", .string "yo"),
          ("timestamp", .string "T1")],
        .object [("id", .string "b"), ("username", .string "alice"), ("message", .string "hey"),
          ("timestamp", .string "T2")]] ∧
      S'.onlineUsers = Sample.session.onlineUsers :=
  history_replaces_timeline Sample.session Sample.history _ rfl rfl

/-- C2: on a session whose timeline is the list `prev`, a `message` frame gives
the timeline `prev` followed by the frame itself; a `user_joined` frame with
the string username `u` gives `prev` followed by the system notice, the
object with the three properties `type: "system"`, `message: u ++ " joined
the chat"` and `timestamp:` the timestamp of the frame; a `user_left` frame
gives `prev` followed by the same notice with the text `u ++ " left the
chat"`. -/
theorem frame_appends_one_entry (S : State) (prev : List JSValue) (data : JSValue)
    (hprev : S.messages = .array prev) :
    (getField data "type" = .ok (.string "message") →
      onmessage S (.ofValue data) = .ok { S with messages := .array (prev ++ [data]) }) ∧
    (∀ (u : String) (ts ou : JSValue),
      getField data "type" = .ok (.string "user_joined") →
      getField data "username" = .ok (.string u) →
      getField data "timestamp" = .ok ts →
      getField data "online_users" = .ok ou →
      onmessage S (.ofValue data) = .ok { S with
        onlineUsers := ou,
        messages := .array (prev ++
          [.object [("type", .string "system"), ("message", .string (u ++ " joined the chat")),
            ("timestamp", ts)]]) }) ∧
    (∀ (u : String) (ts ou : JSValue),
      getField data "type" = .ok (.string "user_left") →
      getField data "username" = .ok (.string u) →
      getField data "timestamp" = .ok ts →
      getField data "online_users" = .ok ou →
      onmessage S (.ofValue data) = .ok { S with
        onlineUsers := ou,
        messages := .array (prev ++
          [.object [("type", .string "system"), ("message", .string (u ++ " left the chat")),
            ("timestamp", ts)]]) }) :=
  ⟨fun hty => onmessage_message S prev data hprev hty,
   fun u ts ou hty hu hts hou =>
     onmessage_joined S prev data (.string u) ts ou u hprev hty hou hu rfl hts,
   fun u ts ou hty hu hts hou =>
     onmessage_left S prev data (.string u) ts ou u hprev hty hou hu rfl hts⟩

theorem frame_appends_one_entry_witness :
    onmessage Sample.session (.ofValue Sample.hello) =
      .ok { Sample.session with messages := .array [Sample.hello, Sample.hello] } ∧
    onmessage Sample.session (.ofValue Sample.carolJoined) =
      .ok { Sample.session with
        onlineUsers := .array [.string "alice", .string "bob", .string "carol"],
        messages := .array [Sample.hello,
          .object [("type", .string "system"), ("message", .string "carol joined the chat"),
            ("timestamp", .string "T0")]] } ∧
    onmessage Sample.session (.ofValue Sample.bobLeft) =
      .ok { Sample.session with
        onlineUsers := .array [.string "alice"],
        messages := .array [Sample.hello,
          .object [("type", .string "system"), ("message", .string "bob left the chat"),
            ("timestamp", .string "T")]] } :=
  ⟨(frame_appends_one_entry Sample.session [Sample.hello] Sample.hello rfl).1 rfl,
   (frame_appends_one_entry Sample.session [Sample.hello] Sample.carolJoined rfl).2.1
     "carol" _ _ rfl rfl rfl rfl,
   (frame_appends_one_entry Sample.session [Sample.hello] Sample.bobLeft rfl).2.2
     "bob" _ _ rfl rfl rfl rfl⟩

/-- C3: let `d` be the last frame of a sequence that takes a presence branch of
the handler (`type` is `user_joined` or `user_left`).  Whenever the sequence
has been applied, from any state, the roster is the `online_users` of `d`,
whatever the roster was before and whatever the other frames are; and the
sequence is applied, whenever the timeline starts as an array and every frame
is well formed. -/
theorem roster_is_last_presence (S : State) (frames : List JSValue) (d : JSValue)
    (hlast : (frames.filter isPresence).getLast? = some d) :
    (∀ S', deliver S (frames.map MessageEvent.ofValue) = .ok S' →
      getField d "online_users" = .ok S'.onlineUsers) ∧
    (∀ prev, S.messages = .array prev → (∀ f ∈ frames, wellFormed f = true) →
      ∃ S', deliver S (frames.map MessageEvent.ofValue) = .ok S' ∧
        getField d "online_users" = .ok S'.onlineUsers) := by
  have key : ∀ S', deliver S (frames.map MessageEvent.ofValue) = .ok S' →
      getField d "online_users" = .ok S'.onlineUsers := by
    intro S' h
    have := deliver_onlineUsers frames S S' h
    rw [hlast] at this
    exact this
  refine ⟨key, ?_⟩
  intro prev hprev hwf
  obtain ⟨S', _, h, _⟩ := deliver_wellFormed frames S prev hprev hwf
  exact ⟨S', h, key S' h⟩

theorem roster_is_last_presence_witness :
    ∃ S', deliver Sample.session
        ([Sample.carolJoined, Sample.hello, Sample.bobLeft, Sample.history, Sample.bogus].map
          MessageEvent.ofValue) = .ok S' ∧
      S'.onlineUsers = .array [.string "alice"] := by
  obtain ⟨S', h, hr⟩ := (roster_is_last_presence Sample.session
    [Sample.carolJoined, Sample.hello, Sample.bobLeft, Sample.history, Sample.bogus]
    Sample.bobLeft rfl).2 [Sample.hello] rfl (by decide)
  refine ⟨S', h, ?_⟩
  have e : getField Sample.bobLeft "online_users" = .ok (.array [.string "alice"]) := rfl
  rw [e] at hr
  exact (Except.ok.inj hr).symm

/-- C4: from any state, a history frame whose `messages` is the list H followed
by message frames and presence frames (with a string username) is applied, and
the timeline is then a list of length `len H` plus the number of message
frames plus the number of presence frames. -/
theorem timeline_length (S : State) (h : JSValue) (H : List JSValue) (frames : List JSValue)
    (hty : getField h "type" = .ok (.string "history"))
    (hms : getField h "messages" = .ok (.array H))
    (hframes : ∀ f ∈ frames, isKind "message" f = true ∨
      (isPresence f = true ∧ fieldIsString f "username" = true)) :
    ∃ S' T, deliver S ((h :: frames).map MessageEvent.ofValue) = .ok S' ∧
      S'.messages = .array T ∧
      T.length = H.length + frames.countP (isKind "message") + frames.countP isPresence := by
  obtain ⟨S', T, hrun, hm, hlen⟩ :=
    deliver_length frames { S with messages := .array H } H rfl hframes
  refine ⟨S', T, ?_, hm, hlen⟩
  rw [List.map_cons, deliver_cons_ok S _ _ _ (onmessage_history S h _ hty hms)]
  exact hrun

theorem timeline_length_witness :
    ∃ S' T, deliver Sample.session
        ((Sample.history :: [Sample.hello, Sample.carolJoined, Sample.hello, Sample.bobLeft]).map
          MessageEvent.ofValue) = .ok S' ∧
      S'.messages = .array T ∧ T.length = 2 + 2 + 2 :=
  timeline_length Sample.session Sample.history _
    [Sample.hello, Sample.carolJoined, Sample.hello, Sample.bobLeft] rfl rfl (by decide)

/-- C9: a parsed frame whose `type` can be read (the frame is not `null`) and
is none of `history`, `message`, `user_joined`, `user_left` (a missing `type`
reads as `undefined`) is applied and leaves the whole state as it was. -/
theorem unknown_discriminator_ignored (S : State) (data ty : JSValue)
    (hty : getField data "type" = .ok ty)
    (h1 : ty ≠ .string "history") (h2 : ty ≠ .string "message")
    (h3 : ty ≠ .string "user_joined") (h4 : ty ≠ .string "user_left") :
    onmessage S (.ofValue data) = .ok S := by
  apply onmessage_other S data ty hty
  · exact Bool.eq_false_iff.2 (fun h => h1 ((strictEqString_iff _ _).1 h))
  · exact Bool.eq_false_iff.2 (fun h => h2 ((strictEqString_iff _ _).1 h))
  · exact Bool.eq_false_iff.2 (fun h => h3 ((strictEqString_iff _ _).1 h))
  · exact Bool.eq_false_iff.2 (fun h => h4 ((strictEqString_iff _ _).1 h))

theorem unknown_discriminator_ignored_witness :
    onmessage Sample.session (.ofValue Sample.bogus) = .ok Sample.session ∧
    onmessage Sample.session (.ofValue (.object [("username", .string "bob")])) =
      .ok Sample.session :=
  ⟨unknown_discriminator_ignored Sample.session Sample.bogus (.string "bogus") rfl
     (by simp) (by simp) (by simp) (by simp),
   unknown_discriminator_ignored Sample.session (.object [("username", .string "bob")])
     .undefined rfl (by simp) (by simp) (by simp) (by simp)⟩

/-- C8 (counterexample): on the sample session the frame `{"type":"history"}`
is not dropped: the timeline, a list of one message before it, is `undefined`
after it; and a frame that is not JSON makes the handler throw a
SyntaxError. -/
theorem malformed_frame_not_dropped :
    Sample.session.messages = .array [Sample.hello] ∧
    onmessage Sample.session (.ofValue Sample.historyNoMessages) =
      .ok { Sample.session with messages := .undefined } ∧
    handler MessageEvent.unparsable = .error .SyntaxError ∧
    onmessage Sample.session MessageEvent.unparsable = .error .SyntaxError :=
  ⟨rfl, rfl, rfl, rfl⟩

theorem dispatch_eq_onmessage (S S' : State) (event : MessageEvent)
    (h : onmessage S event = .ok S') : dispatch S event = .ok S' := by
  cases hh : handler event with
  | error e => simp [onmessage, hh, bind, Except.bind] at h
  | ok updates =>
    simp only [onmessage, hh, bind, Except.bind] at h
    simp [dispatch, hh, h]

theorem handler_joined (data ou : JSValue)
    (hty : getField data "type" = .ok (.string "user_joined"))
    (hou : getField data "online_users" = .ok ou) :
    handler (.ofValue data) =
      .ok [.setOnlineUsers ou, .setMessagesWith (appendNotice " joined the chat" data)] := by
  simp [handler, MessageEvent.ofValue, hty, hou, strictEqString, bind, Except.bind, pure,
    Except.pure]

theorem handler_left (data ou : JSValue)
    (hty : getField data "type" = .ok (.string "user_left"))
    (hou : getField data "online_users" = .ok ou) :
    handler (.ofValue data) =
      .ok [.setOnlineUsers ou, .setMessagesWith (appendNotice " left the chat" data)] := by
  simp [handler, MessageEvent.ofValue, hty, hou, strictEqString, bind, Except.bind, pure,
    Except.pure]

theorem onmessage_notice_fails (S : State) (prev : List JSValue) (data uv : JSValue)
    (e : JSError) (hprev : S.messages = .array prev)
    (hty : getField data "type" = .ok (.string "user_joined") ∨
      getField data "type" = .ok (.string "user_left"))
    (hu : getField data "username" = .ok uv) (htext : toStringJS uv = .error e) :
    onmessage S (.ofValue data) = .error e := by
  rcases hty with hty | hty
  · obtain ⟨ou, hou⟩ := getField_defined data _ "online_users" hty
    simp [onmessage, handler, MessageEvent.ofValue, hty, hou, hu, htext, strictEqString,
      applyUpdates, applyUpdate, appendNotice, spread, hprev, bind, Except.bind, pure,
      Except.pure]
  · obtain ⟨ou, hou⟩ := getField_defined data _ "online_users" hty
    simp [onmessage, handler, MessageEvent.ofValue, hty, hou, hu, htext, strictEqString,
      applyUpdates, applyUpdate, appendNotice, spread, hprev, bind, Except.bind, pure,
      Except.pure]

/-- C8 (amended): the handler validates nothing and drops nothing.

A frame that is not JSON makes `JSON.parse` throw a SyntaxError out of the
handler.  Nothing has been queued at that point: delivering the frame leaves
every state variable as it was, the frames after it are handled as if it had
not come, and a well-formed frame after it is applied.

For a parsed frame with a known discriminator the handler throws nothing and
queues its updates with each missing field read as `undefined`.  On a session
whose timeline is the list `prev`: `history` without `messages` queues
`setMessages(undefined)` and the timeline is `undefined` afterwards; a
`message` frame, whatever fields it lacks, is appended to the timeline as it
came, and a well-formed frame after it is applied; a presence frame without
`online_users` queues `setOnlineUsers(undefined)` and the notice updater: when
`ToString` of the username field gives `u` (`"undefined"` for a missing
username) the roster is `undefined` afterwards and the notice with the text
`u ++ " joined the chat"` or `u ++ " left the chat"` is appended, and when
`ToString` throws, the updater fails with that error. -/
theorem malformed_frame_applied (S : State) (prev : List JSValue) (data : JSValue)
    (hprev : S.messages = .array prev) :
    (handler MessageEvent.unparsable = .error .SyntaxError ∧
      dispatch S MessageEvent.unparsable = .ok S ∧
      (∀ rest, dispatchAll S (MessageEvent.unparsable :: rest) = dispatchAll S rest) ∧
      (∀ next, wellFormed next = true →
        ∃ S', dispatchAll S [MessageEvent.unparsable, .ofValue next] = .ok S' ∧
          onmessage S (.ofValue next) = .ok S')) ∧
    (getField data "type" = .ok (.string "history") →
      getField data "messages" = .ok .undefined →
      handler (.ofValue data) = .ok [.setMessages .undefined] ∧
      onmessage S (.ofValue data) = .ok { S with messages := .undefined }) ∧
    (getField data "type" = .ok (.string "message") →
      handler (.ofValue data) = .ok [.setMessagesWith (appendData data)] ∧
      onmessage S (.ofValue data) = .ok { S with messages := .array (prev ++ [data]) } ∧
      (∀ next, wellFormed next = true →
        ∃ S', deliver S [.ofValue data, .ofValue next] = .ok S')) ∧
    (∀ (uv ts : JSValue),
      getField data "type" = .ok (.string "user_joined") →
      getField data "online_users" = .ok .undefined →
      getField data "username" = .ok uv →
      getField data "timestamp" = .ok ts →
      handler (.ofValue data) = .ok [.setOnlineUsers .undefined,
        .setMessagesWith (appendNotice " joined the chat" data)] ∧
      (∀ u, toStringJS uv = .ok u →
        onmessage S (.ofValue data) = .ok { S with
          onlineUsers := .undefined,
          messages := .array (prev ++
            [.object [("type", .string "system"), ("message", .string (u ++ " joined the chat")),
              ("timestamp", ts)]]) }) ∧
      (∀ e, toStringJS uv = .error e → onmessage S (.ofValue data) = .error e)) ∧
    (∀ (uv ts : JSValue),
      getField data "type" = .ok (.string "user_left") →
      getField data "online_users" = .ok .undefined →
      getField data "username" = .ok uv →
      getField data "timestamp" = .ok ts →
      handler (.ofValue data) = .ok [.setOnlineUsers .undefined,
        .setMessagesWith (appendNotice " left the chat" data)] ∧
      (∀ u, toStringJS uv = .ok u →
        onmessage S (.ofValue data) = .ok { S with
          onlineUsers := .undefined,
          messages := .array (prev ++
            [.object [("type", .string "system"), ("message", .string (u ++ " left the chat")),
              ("timestamp", ts)]]) }) ∧
      (∀ e, toStringJS uv = .error e → onmessage S (.ofValue data) = .error e)) := by
  refine ⟨⟨rfl, rfl, fun _ => rfl, ?_⟩, ?_, ?_, ?_, ?_⟩
  · intro next hwf
    obtain ⟨S', _, h, _⟩ := onmessage_wellFormed S prev next hprev hwf
    refine ⟨S', ?_, h⟩
    have hd := dispatch_eq_onmessage S S' _ h
    have h0 : dispatch S MessageEvent.unparsable = .ok S := rfl
    simp [dispatchAll, h0, hd, bind, Except.bind]
  · intro hty hms
    refine ⟨?_, onmessage_history S data .undefined hty hms⟩
    simp [handler, MessageEvent.ofValue, hty, hms, strictEqString, bind, Except.bind, pure,
      Except.pure]
  · intro hty
    have h1 := onmessage_message S prev data hprev hty
    refine ⟨?_, h1, ?_⟩
    · simp [handler, MessageEvent.ofValue, hty, strictEqString, bind, Except.bind, pure,
        Except.pure]
    · intro next hwf
      obtain ⟨S', _, h2, _⟩ := onmessage_wellFormed
        { S with messages := .array (prev ++ [data]) } (prev ++ [data]) next rfl hwf
      refine ⟨S', ?_⟩
      rw [deliver_cons_ok S _ _ _ h1]
      simp [deliver, h2, bind, Except.bind]
  · intro uv ts hty hou hu hts
    refine ⟨handler_joined data .undefined hty hou, ?_, ?_⟩
    · exact fun u htext => onmessage_joined S prev data uv ts .undefined u hprev hty hou hu htext hts
    · exact fun e htext => onmessage_notice_fails S prev data uv e hprev (Or.inl hty) hu htext
  · intro uv ts hty hou hu hts
    refine ⟨handler_left data .undefined hty hou, ?_, ?_⟩
    · exact fun u htext => onmessage_left S prev data uv ts .undefined u hprev hty hou hu htext hts
    · exact fun e htext => onmessage_notice_fails S prev data uv e hprev (Or.inr hty) hu htext

theorem malformed_frame_applied_witness :
    (dispatch Sample.session MessageEvent.unparsable = .ok Sample.session ∧
      ∃ S', dispatchAll Sample.session [MessageEvent.unparsable, .ofValue Sample.hello] =
          .ok S' ∧
        onmessage Sample.session (.ofValue Sample.hello) = .ok S') ∧
    onmessage Sample.session (.ofValue Sample.leftNoFields) =
      .ok { Sample.session with
        onlineUsers := .undefined,
        messages := .array [Sample.hello,
          .object [("type", .string "system"), ("message", .string "undefined left the chat"),
            ("timestamp", .string "T")]] } ∧
    onmessage Sample.session (.ofValue Sample.leftBadUsername) = .error .TypeError :=
  ⟨⟨(malformed_frame_applied Sample.session [Sample.hello] Sample.hello rfl).1.2.1,
    (malformed_frame_applied Sample.session [Sample.hello] Sample.hello rfl).1.2.2.2
      Sample.hello (by decide)⟩,
   ((malformed_frame_applied Sample.session [Sample.hello] Sample.leftNoFields rfl).2.2.2.2
      .undefined (.string "T") rfl rfl rfl rfl).2.1 "undefined" rfl,
   ((malformed_frame_applied Sample.session [Sample.hello] Sample.leftBadUsername rfl).2.2.2.2
      (.object [("toString", .number "1")]) (.string "T") rfl rfl rfl rfl).2.2 .TypeError rfl⟩

/-! ## The claims about the user operations -/

theorem truthy_iff (s : String) : truthy s = true ↔ s ≠ "" := by
  cases s with
  | mk l => cases l <;> simp [truthy, String.ext_iff]

/-- C5: `sendMessage` never throws.  When the input text is not empty after
trimming and `wsRef` holds a socket that is open, the socket transmits exactly
one more frame, the `JSON.stringify` text of the object with the single
property `message` holding the input text as typed.  In every other case the
state after the call is the state before it: nothing is transmitted and the
input text stays. -/
theorem sendMessage_transmits (S : State) :
    ∃ S', sendMessage S = .ok S' ∧
      ((trim S.inputMessage ≠ "" ∧ ∃ ws, S.wsRef = some ws ∧ ws.readyState = .OPEN) →
        ∃ frame, JSON.stringify (.object [("message", .string S.inputMessage)]) = some frame ∧
          sentFrames S' = sentFrames S ++ [frame]) ∧
      (¬ (trim S.inputMessage ≠ "" ∧ ∃ ws, S.wsRef = some ws ∧ ws.readyState = .OPEN) →
        S' = S ∧ sentFrames S' = sentFrames S) := by
  by_cases ht : truthy (trim S.inputMessage) = true
  · have hne := (truthy_iff _).1 ht
    cases hr : S.wsRef with
    | none =>
      refine ⟨S, by simp [sendMessage, ht, hr, pure, Except.pure], ?_, fun _ => ⟨rfl, rfl⟩⟩
      rintro ⟨_, ws, hws, _⟩
      cases hws
    | some ws =>
      by_cases ho : ws.readyState = .OPEN
      · have hsend : sendMessage S = .ok { S with
            wsRef := some { ws with sent := ws.sent ++ [(JSON.stringify
              (.object [("message", .string S.inputMessage)])).getD "undefined"] },
            inputMessage := "" } := by
          simp [sendMessage, ht, hr, ho, WebSocket.send, bind, Except.bind, pure, Except.pure]
        refine ⟨_, hsend, ?_, ?_⟩
        · intro _
          exact ⟨_, rfl, by simp [sentFrames, hr, JSON.stringify, JSON.stringifyProps]⟩
        · intro hn
          exact absurd ⟨hne, ws, rfl, ho⟩ hn
      · refine ⟨S, by simp [sendMessage, ht, hr, ho, pure, Except.pure], ?_, fun _ => ⟨rfl, rfl⟩⟩
        rintro ⟨_, ws', hws, ho'⟩
        cases hws
        exact absurd ho' ho
  · refine ⟨S, by simp [sendMessage, ht, pure, Except.pure], ?_, fun _ => ⟨rfl, rfl⟩⟩
    rintro ⟨hne, _⟩
    exact absurd ((truthy_iff _).2 hne) ht

theorem sendMessage_transmits_witness :
    sendMessage { Sample.session with inputMessage := "" } =
      .ok { Sample.session with inputMessage := "" } ∧
    sendMessage { Sample.session with inputMessage := "  " } =
      .ok { Sample.session with inputMessage := "  " } ∧
    ∃ S', sendMessage Sample.session = .ok S' ∧
      sentFrames S' = ["\x7b\"message\":\"see you\"\x7d"] := by
  refine ⟨?_, ?_, ?_⟩
  · obtain ⟨S', h, _, hno⟩ := sendMessage_transmits { Sample.session with inputMessage := "" }
    rw [h, (hno (fun hc => hc.1 (by decide))).1]
  · obtain ⟨S', h, _, hno⟩ := sendMessage_transmits { Sample.session with inputMessage := "  " }
    rw [h, (hno (fun hc => hc.1 (by decide))).1]
  · obtain ⟨S', h, hyes, _⟩ := sendMessage_transmits Sample.session
    obtain ⟨frame, hf, hs⟩ := hyes ⟨by decide, Sample.socket, rfl, rfl⟩
    have e : JSON.stringify (.object [("message", .string Sample.session.inputMessage)]) =
        some "\x7b\"message\":\"see you\"\x7d" := by decide
    rw [e] at hf
    cases hf
    exact ⟨S', h, hs⟩

/-- C6 (counterexample): with the username `"  "`, which is empty after
trimming, `joinChat` completes normally and its value is `undefined`, the very
value it has when it accepts the username `"alice"`: no `InvalidUsername` is
returned. -/
theorem joinChat_blank_returns_undefined :
    trim "  " = "" ∧
    joinChat { State.initial with username := "  " } =
      .ok (.undefined, { State.initial with username := "  " }) ∧
    ∃ S', joinChat { State.initial with username := "alice" } = .ok (.undefined, S') :=
  ⟨by decide, rfl, _, rfl⟩

/-- C6 (amended): for every username that is empty after trimming, `joinChat`
returns no `InvalidUsername`: it completes normally and its value is
`undefined`.  The state after it is the state before it: no WebSocket has been
constructed, `wsRef` holds what it held, and the joined flag, timeline, roster
and connection flag are the same. -/
theorem joinChat_blank_no_effect (S : State) (h : trim S.username = "") :
    joinChat S = .ok (.undefined, S) := by
  have ht : truthy (trim S.username) = false := by
    rw [h]
    rfl
  simp [joinChat, ht, pure, Except.pure]

theorem joinChat_blank_no_effect_witness :
    joinChat { Sample.session with username := " \t " } =
      .ok (.undefined, { Sample.session with username := " \t " }) :=
  joinChat_blank_no_effect { Sample.session with username := " \t " } (by decide)

/-- C7 (counterexample): the sample session is connected through an open
socket; right after `leaveChat` the flag `isConnected` is still true. -/
theorem leaveChat_keeps_isConnected :
    Sample.session.isConnected = true ∧
    Sample.session.wsRef = some Sample.socket ∧ Sample.socket.readyState = .OPEN ∧
    (leaveChat Sample.session).isConnected = true :=
  ⟨rfl, rfl, rfl, rfl⟩

/-- C7 (amended): right after `leaveChat` the joined flag is false, the timeline
and the roster are empty, the username is empty, and `close()` has been called
on the socket in `wsRef`, if any, which is then closing or closed.
`leaveChat` itself leaves `isConnected`, the input text and the handle in
`wsRef` in place; `isConnected` is false once the close event has been
delivered to `ws.onclose`, which changes nothing else. -/
theorem leaveChat_resets (S : State) :
    leaveChat S =
      { username := "", isJoined := false, messages := .array [],
        inputMessage := S.inputMessage, onlineUsers := .array [],
        isConnected := S.isConnected, wsRef := S.wsRef.map WebSocket.close,
        constructed := S.constructed } ∧
    (∀ ws, (leaveChat S).wsRef = some ws →
      ws.readyState = .CLOSING ∨ ws.readyState = .CLOSED) ∧
    onclose (leaveChat S) = { leaveChat S with isConnected := false } := by
  refine ⟨?_, ?_, rfl⟩
  · cases hr : S.wsRef <;> simp [leaveChat, hr]
  · intro ws hws
    cases hr : S.wsRef with
    | none => simp [leaveChat, hr] at hws
    | some w =>
      simp only [leaveChat, hr, Option.some.injEq] at hws
      subst hws
      cases hs : w.readyState <;> simp [WebSocket.close, hs]

/-- C10: `leaveChat` is idempotent: the state after two calls in a row is the
state after one, every variable and the socket in `wsRef` included.
`leaveChat` is a total function: no call of it fails. -/
theorem leaveChat_idempotent (S : State) : leaveChat (leaveChat S) = leaveChat S := by
  cases hr : S.wsRef with
  | none => simp [leaveChat, hr]
  | some w => cases hs : w.readyState <;> simp [leaveChat, hr, WebSocket.close, hs]

end App
